import Mathlib

/-!
Verification development for the trait-obligation fulfillment and
associated-type projection engine
(`src/librustc_trait_selection/traits/project.rs` and
`src/librustc_trait_selection/traits/fulfill.rs`).

The embedding models the engine's own control flow faithfully while
treating the external collaborators named in the specification
(selection, unification, inference-variable substitution,
specialization lookup, the snapshot facility of the inference context,
and the obligation-forest / projection-cache primitives that live in
other crates) as explicit capability records or spec-modelled
definitions.  Machine types are modelled by a small first-order type
grammar `MTy`; identifiers (def-ids, causes, variable ids) are `Nat`.

Recursive normalization is bounded by an explicit fuel parameter; fuel
exhaustion (like a panic in the source) is modelled by `Option.none`.
All verified properties lie on paths whose behaviour is independent of
the amount of fuel supplied.
-/

/-- Model of `rustc_middle::ty::Ty`: a first-order type grammar with
inference variables, type parameters, opaque types, projections, a
unary type constructor and the error type.  Projections and opaque
types carry their item/def id, the self type (the head of their
substitutions) and an opaque tag standing for the remaining
substitutions. -/
inductive MTy where
  | base : Nat → MTy
  | infer : Nat → MTy
  | param : Nat → MTy
  | ctor : Nat → MTy → MTy
  | proj : Nat → MTy → Nat → MTy
  | opaq : Nat → MTy → Nat → MTy
  | err : MTy
deriving DecidableEq, Repr

/-- Model of `TypeFlags::HAS_TY_INFER` (`has_infer_types_or_consts`):
the type syntactically contains an inference variable. -/
def tyHasInfer : MTy → Bool
  | MTy.infer _ => true
  | MTy.ctor _ t => tyHasInfer t
  | MTy.proj _ t _ => tyHasInfer t
  | MTy.opaq _ t _ => tyHasInfer t
  | _ => false

/-- Model of `TypeFoldable::has_projections`: the type contains a
projection or an opaque type. -/
def has_projections : MTy → Bool
  | MTy.proj _ _ _ => true
  | MTy.opaq _ _ _ => true
  | MTy.ctor _ t => has_projections t
  | _ => false

/-- Model of `TypeFoldable::references_error`. -/
def references_error : MTy → Bool
  | MTy.err => true
  | MTy.ctor _ t => references_error t
  | MTy.proj _ t _ => references_error t
  | MTy.opaq _ t _ => references_error t
  | _ => false

/-- Model of `Predicate::is_global` on the type level: no inference
variables and no type parameters occur. -/
def tyIsGlobal : MTy → Bool
  | MTy.infer _ => false
  | MTy.param _ => false
  | MTy.ctor _ t => tyIsGlobal t
  | MTy.proj _ t _ => tyIsGlobal t
  | MTy.opaq _ t _ => tyIsGlobal t
  | _ => true

/-- Inference variables occurring in a type, in left-to-right order
(used by `trait_ref_infer_vars`, which walks the substs and collects
`TyOrConstInferVar`s). -/
def collectInferVars : MTy → List Nat
  | MTy.infer v => [v]
  | MTy.ctor _ t => collectInferVars t
  | MTy.proj _ t _ => collectInferVars t
  | MTy.opaq _ t _ => collectInferVars t
  | _ => []

/-- Modelled from the spec: the inference context consumed as a
capability (§6).  `nextVar` is the counter backing `next_ty_var`;
`bindings` maps resolved inference variables to their (fully resolved)
values. -/
structure InferState where
  nextVar : Nat
  bindings : List (Nat × MTy)
deriving DecidableEq, Repr

/-- Lookup in an association list of variable bindings. -/
def lookupBindings : List (Nat × MTy) → Nat → Option MTy
  | [], _ => none
  | b :: rest, v => if b.1 = v then some b.2 else lookupBindings rest v

/-- Lookup of an inference variable's binding. -/
def lookupVar (s : InferState) (v : Nat) : Option MTy :=
  lookupBindings s.bindings v

/-- Modelled from the spec: `resolve_vars_if_possible` — substitute
currently-known inference bindings (§6).  Bindings are maintained fully
resolved, so a single substitution pass suffices. -/
def resolveTy (s : InferState) : MTy → MTy
  | MTy.infer v =>
    match lookupVar s v with
    | some t => t
    | none => MTy.infer v
  | MTy.ctor n t => MTy.ctor n (resolveTy s t)
  | MTy.proj i t r => MTy.proj i (resolveTy s t) r
  | MTy.opaq i t r => MTy.opaq i (resolveTy s t) r
  | t => t

/-- Model of `infcx.unresolved_type_vars(&ty).is_some()`: after
substituting known bindings, some inference variable remains. -/
def hasUnresolvedVars (s : InferState) (t : MTy) : Bool :=
  tyHasInfer (resolveTy s t)

/-- Model of `ty::ProjectionTy`: `item_def_id` plus substitutions
(self type and a tag for the remaining substs). -/
structure MProjectionTy where
  itemDefId : Nat
  selfTy : MTy
  rest : Nat
deriving DecidableEq, Repr

/-- Resolution of inference variables inside a projection. -/
def resolveProj (s : InferState) (p : MProjectionTy) : MProjectionTy :=
  { p with selfTy := resolveTy s p.selfTy }

/-- Model of `ty::TraitRef` (trait id plus substitutions). -/
structure MTraitRef where
  traitId : Nat
  selfTy : MTy
  rest : Nat
deriving DecidableEq, Repr

/-- Model of `ty::ProjectionPredicate`: `<T as Trait>::Item == ty`. -/
structure MProjectionPredicate where
  projectionTy : MProjectionTy
  ty : MTy
deriving DecidableEq, Repr

/-- Model of `ty::PredicateKind`, restricted to the kinds the claims
exercise; all remaining kinds are collapsed into `otherPred`. -/
inductive MPredicate where
  | traitPred : MTraitRef → MPredicate
  | projectionPred : MProjectionPredicate → MPredicate
  | otherPred : Nat → MPredicate
deriving DecidableEq, Repr

/-- Model of `Reveal`. -/
inductive Reveal where
  | userFacing
  | all
deriving DecidableEq, Repr

/-- Model of `ty::ParamEnv`: the ambient caller bounds and the reveal
mode. -/
structure MParamEnv where
  callerBounds : List MPredicate
  reveal : Reveal
deriving DecidableEq, Repr

/-- Model of `Obligation` over a general predicate. -/
structure MObligation where
  cause : Nat
  recursionDepth : Nat
  paramEnv : MParamEnv
  predicate : MPredicate
deriving DecidableEq, Repr

/-- Model of `ProjectionTyObligation` (an obligation whose predicate is
a `ProjectionTy`). -/
structure MProjObligation where
  cause : Nat
  recursionDepth : Nat
  paramEnv : MParamEnv
  predicate : MProjectionTy
deriving DecidableEq, Repr

/-- Predicate-level `has_infer_types_or_consts`. -/
def predHasInfer : MPredicate → Bool
  | MPredicate.traitPred tr => tyHasInfer tr.selfTy
  | MPredicate.projectionPred d => tyHasInfer d.projectionTy.selfTy || tyHasInfer d.ty
  | MPredicate.otherPred _ => false

/-- Predicate-level `is_global`. -/
def predIsGlobal : MPredicate → Bool
  | MPredicate.traitPred tr => tyIsGlobal tr.selfTy
  | MPredicate.projectionPred d => tyIsGlobal d.projectionTy.selfTy && tyIsGlobal d.ty
  | MPredicate.otherPred _ => true

/-- Resolution of inference variables inside a predicate. -/
def resolvePred (s : InferState) : MPredicate → MPredicate
  | MPredicate.traitPred tr => MPredicate.traitPred { tr with selfTy := resolveTy s tr.selfTy }
  | MPredicate.projectionPred d =>
    MPredicate.projectionPred { projectionTy := resolveProj s d.projectionTy, ty := resolveTy s d.ty }
  | p => p

/-- Modelled from the spec: the unification capability used inside a
probe by `assemble_candidates_from_predicates` (`infcx.at(..).sup`):
two types unify when, after substituting known bindings, they are
syntactically equal up to inference variables. -/
def tysUnify : MTy → MTy → Bool
  | MTy.infer _, _ => true
  | _, MTy.infer _ => true
  | MTy.ctor n a, MTy.ctor m b => n == m && tysUnify a b
  | MTy.proj i a r, MTy.proj j b t => i == j && r == t && tysUnify a b
  | MTy.opaq i a r, MTy.opaq j b t => i == j && r == t && tysUnify a b
  | a, b => a == b

/-- Modelled from the spec: trait-ref matching inside a probe. -/
def traitRefsUnify (s : InferState) (a b : MTraitRef) : Bool :=
  a.traitId == b.traitId && a.rest == b.rest && tysUnify (resolveTy s a.selfTy) (resolveTy s b.selfTy)

/-- Model of `SelectionError`. -/
inductive MSelectionError where
  | overflow
  | unimplemented
  | other : Nat → MSelectionError
deriving DecidableEq, Repr

/-- Model of `ImplSource` (`Selection`).  For user-defined impls the
outcome of the external `assoc_ty_def` / specialization-graph lookup is
carried as data: whether the associated item is final, and whether the
(resolved) trait ref is still further specializable. -/
inductive ImplSource where
  | userDefined : Bool → Bool → List MObligation → ImplSource
  | closure : List MObligation → ImplSource
  | generator : List MObligation → ImplSource
  | fnPointer : List MObligation → ImplSource
  | object : ImplSource
  | traitAlias : List MObligation → ImplSource
  | discriminantKind : ImplSource
  | param : ImplSource
  | autoImpl : ImplSource
  | builtin : ImplSource
deriving DecidableEq, Repr

/-- Model of `ImplSource::nested_obligations`. -/
def implNested : ImplSource → List MObligation
  | ImplSource.userDefined _ _ nested => nested
  | ImplSource.closure nested => nested
  | ImplSource.generator nested => nested
  | ImplSource.fnPointer nested => nested
  | ImplSource.traitAlias nested => nested
  | _ => []

/-- Model of `ProjectionTyCandidate` (`ParamEnv`, `TraitDef`,
`Select`). -/
inductive ProjectionTyCandidate where
  | paramEnv : MProjectionPredicate → ProjectionTyCandidate
  | traitDef : MProjectionPredicate → ProjectionTyCandidate
  | select : ImplSource → ProjectionTyCandidate
deriving DecidableEq, Repr

/-- Whether a candidate is an ambient-bound (`ParamEnv`) candidate. -/
def isParamEnvCandidate : ProjectionTyCandidate → Bool
  | ProjectionTyCandidate.paramEnv _ => true
  | _ => false

/-- Model of `ProjectionTyCandidateSet`. -/
inductive ProjectionTyCandidateSet where
  | none
  | single : ProjectionTyCandidate → ProjectionTyCandidateSet
  | ambiguous
  | error : MSelectionError → ProjectionTyCandidateSet
deriving DecidableEq, Repr

/-- Model of `ProjectionTyCandidateSet::mark_ambiguous`. -/
def mark_ambiguous (_s : ProjectionTyCandidateSet) : ProjectionTyCandidateSet :=
  ProjectionTyCandidateSet.ambiguous

/-- Model of `ProjectionTyCandidateSet::mark_error`. -/
def mark_error (_s : ProjectionTyCandidateSet) (e : MSelectionError) : ProjectionTyCandidateSet :=
  ProjectionTyCandidateSet.error e

/-- Model of `ProjectionTyCandidateSet::push_candidate`.  The source
mutates `self` and returns a `bool`; here the new set and the returned
flag are paired.  The `(_, ParamEnv(..))` arm of the source match is
`unreachable!()` — pushing an ambient-bound candidate onto a Single
non-ambient candidate panics — which is modelled by `Option.none`. -/
def push_candidate (s : ProjectionTyCandidateSet) (candidate : ProjectionTyCandidate) :
    Option (ProjectionTyCandidateSet × Bool) :=
  match s with
  | ProjectionTyCandidateSet.none =>
    some (ProjectionTyCandidateSet.single candidate, true)
  | ProjectionTyCandidateSet.single current =>
    if current = candidate then
      some (ProjectionTyCandidateSet.single current, false)
    else
      match current, candidate with
      | ProjectionTyCandidate.paramEnv _, ProjectionTyCandidate.paramEnv _ =>
        some (ProjectionTyCandidateSet.ambiguous, false)
      | ProjectionTyCandidate.paramEnv _, _ =>
        some (ProjectionTyCandidateSet.single current, false)
      | _, ProjectionTyCandidate.paramEnv _ => none
      | _, _ => some (ProjectionTyCandidateSet.ambiguous, false)
  | ProjectionTyCandidateSet.ambiguous => some (ProjectionTyCandidateSet.ambiguous, false)
  | ProjectionTyCandidateSet.error e => some (ProjectionTyCandidateSet.error e, false)

/-- Model of `NormalizedTy` (a value plus the obligations incurred
while producing it). -/
structure MNormalizedTy where
  value : MTy
  obligations : List MObligation
deriving DecidableEq, Repr

/-- Model of `ProjectionCacheEntry`. -/
inductive ProjectionCacheEntry where
  | inProgress
  | ambiguous
  | normalizedTy : MNormalizedTy → ProjectionCacheEntry
  | error
deriving DecidableEq, Repr

/-- The projection cache, keyed by the fully resolved projection. -/
abbrev ProjectionCache : Type := List (MProjectionTy × ProjectionCacheEntry)

/-- Cache lookup. -/
def cacheLookup (cache : ProjectionCache) (key : MProjectionTy) : Option ProjectionCacheEntry :=
  match cache with
  | [] => none
  | e :: rest => if e.1 = key then some e.2 else cacheLookup rest key

/-- Insertion (replacing any previous entry for the key). -/
def cacheInsert (cache : ProjectionCache) (key : MProjectionTy) (entry : ProjectionCacheEntry) :
    ProjectionCache :=
  (key, entry) :: (cache : List (MProjectionTy × ProjectionCacheEntry)).filter (fun e => e.1 != key)

/-- Modelled from the spec: `ProjectionCache::ambiguous` (§4.2). -/
def cacheAmbiguous (cache : ProjectionCache) (key : MProjectionTy) : ProjectionCache :=
  cacheInsert cache key ProjectionCacheEntry.ambiguous

/-- Modelled from the spec: `ProjectionCache::error` (§4.2). -/
def cacheError (cache : ProjectionCache) (key : MProjectionTy) : ProjectionCache :=
  cacheInsert cache key ProjectionCacheEntry.error

/-- Modelled from the spec: `ProjectionCache::insert_ty` (§4.2). -/
def insert_ty (cache : ProjectionCache) (key : MProjectionTy) (value : MNormalizedTy) :
    ProjectionCache :=
  cacheInsert cache key (ProjectionCacheEntry.normalizedTy value)

/-- Modelled from the spec: `ProjectionCache::complete_normalized`
(§4.2) — once inference fully resolves the cached value it is
"completed" and thereafter returned without obligations. -/
def complete_normalized (cache : ProjectionCache) (key : MProjectionTy) (value : MNormalizedTy) :
    ProjectionCache :=
  cacheInsert cache key
    (ProjectionCacheEntry.normalizedTy { value := value.value, obligations := [] })

/-- The mutable state threaded through the selection context: the
inference state and the projection cache. -/
structure SelState where
  infer : InferState
  cache : ProjectionCache
deriving DecidableEq, Repr

/-- Model of the outcome of the external selection capability
(`selcx.select`). -/
inductive SelectResult where
  | okSome : ImplSource → SelectResult
  | okNone
  | err : MSelectionError → SelectResult

/-- Model of `Progress` (a projected type plus nested obligations). -/
structure Progress where
  ty : MTy
  obligations : List MObligation
deriving DecidableEq, Repr

/-- Modelled from the spec: the bundle of external capabilities (§1,
§6) consumed by the engine — selection, candidate confirmation (which
relies on impl substitution and higher-ranked unification),
trait-definition bounds lookup (`tcx.projection_predicates(..).subst`),
associated-item-to-trait resolution, opaque-type definitions
(`tcx.type_of(..).subst`), the unification capability `infcx.at(..).eq`
and the global recursion limit. -/
structure Tcx where
  traitOfItem : Nat → Nat
  traitDefBounds : Nat → MTy → Nat → List MPredicate
  select : MObligation → SelectResult
  confirmResult : MProjObligation → ProjectionTyCandidate → Progress
  eqTys : InferState → MTy → MTy → Option (List MObligation × InferState)
  typeOfOpaque : Nat → MTy → Nat → MTy
  recursionLimit : Nat

/-- Model of `ProjectionTy::trait_ref`. -/
def projTraitRef (tcx : Tcx) (p : MProjectionTy) : MTraitRef :=
  { traitId := tcx.traitOfItem p.itemDefId, selfTy := p.selfTy, rest := p.rest }

/-- Model of `get_paranoid_cache_value_obligation`: the `T: Trait`
obligation re-added on every cache read. -/
def get_paranoid_cache_value_obligation (tcx : Tcx) (param_env : MParamEnv)
    (projection_ty : MProjectionTy) (cause : Nat) (depth : Nat) : MObligation :=
  { cause := cause, recursionDepth := depth, paramEnv := param_env,
    predicate := MPredicate.traitPred (projTraitRef tcx projection_ty) }

/-- Model of `normalize_to_error`: a fresh inference variable plus the
`T: Trait` obligation whose processing will report the error. -/
def normalize_to_error (tcx : Tcx) (param_env : MParamEnv) (projection_ty : MProjectionTy)
    (cause : Nat) (depth : Nat) (s : InferState) : InferState × MNormalizedTy :=
  let trait_obligation : MObligation :=
    { cause := cause, recursionDepth := depth, paramEnv := param_env,
      predicate := MPredicate.traitPred (projTraitRef tcx projection_ty) }
  let new_value := MTy.infer s.nextVar
  ({ s with nextVar := s.nextVar + 1 },
   { value := new_value, obligations := [trait_obligation] })

/-- Model of `prune_cache_value_obligations`: when the value is fully
resolved no obligations are kept; otherwise only projection predicates
whose right-hand side still mentions unresolved variables are kept. -/
def prune_cache_value_obligations (s : InferState) (result : MNormalizedTy) : MNormalizedTy :=
  if ¬ hasUnresolvedVars s result.value then
    { value := result.value, obligations := [] }
  else
    { value := result.value,
      obligations := result.obligations.filter (fun obligation =>
        match obligation.predicate with
        | MPredicate.projectionPred data => hasUnresolvedVars s data.ty
        | _ => false) }

/-- Model of `assemble_candidates_from_predicates`: scan the predicate
list, pushing each projection predicate with the right item id whose
trait ref unifies (in a probe) with the obligation's trait ref. -/
def assemble_candidates_from_predicates (s : InferState) (tcx : Tcx) (obligationItem : Nat)
    (obligation_trait_ref : MTraitRef) (candidate_set : ProjectionTyCandidateSet)
    (ctor : MProjectionPredicate → ProjectionTyCandidate) :
    List MPredicate → Option ProjectionTyCandidateSet
  | [] => some candidate_set
  | predicate :: rest =>
    match predicate with
    | MPredicate.projectionPred data =>
      let same_def_id := data.projectionTy.itemDefId == obligationItem
      let is_match := same_def_id &&
        traitRefsUnify s obligation_trait_ref (projTraitRef tcx data.projectionTy)
      if is_match then
        match push_candidate candidate_set (ctor data) with
        | some cs =>
          assemble_candidates_from_predicates s tcx obligationItem obligation_trait_ref cs.1
            ctor rest
        | none => none
      else
        assemble_candidates_from_predicates s tcx obligationItem obligation_trait_ref
          candidate_set ctor rest
    | _ =>
      assemble_candidates_from_predicates s tcx obligationItem obligation_trait_ref
        candidate_set ctor rest

/-- Model of `assemble_candidates_from_param_env`: scan the ambient
caller bounds with the `ParamEnv` constructor. -/
def assemble_candidates_from_param_env (s : InferState) (tcx : Tcx)
    (obligation : MProjObligation) (obligation_trait_ref : MTraitRef)
    (candidate_set : ProjectionTyCandidateSet) : Option ProjectionTyCandidateSet :=
  assemble_candidates_from_predicates s tcx obligation.predicate.itemDefId obligation_trait_ref
    candidate_set ProjectionTyCandidate.paramEnv obligation.paramEnv.callerBounds

/-- Model of `assemble_candidates_from_trait_def`: when the self type
is itself a projection or an opaque type, scan the bounds declared on
its definition; when it is an unresolved inference variable, mark the
set ambiguous. -/
def assemble_candidates_from_trait_def (s : InferState) (tcx : Tcx)
    (obligation : MProjObligation) (obligation_trait_ref : MTraitRef)
    (candidate_set : ProjectionTyCandidateSet) : Option ProjectionTyCandidateSet :=
  match obligation_trait_ref.selfTy with
  | MTy.proj item t rest =>
    assemble_candidates_from_predicates s tcx obligation.predicate.itemDefId
      obligation_trait_ref candidate_set ProjectionTyCandidate.traitDef
      (tcx.traitDefBounds item t rest)
  | MTy.opaq defId t rest =>
    assemble_candidates_from_predicates s tcx obligation.predicate.itemDefId
      obligation_trait_ref candidate_set ProjectionTyCandidate.traitDef
      (tcx.traitDefBounds defId t rest)
  | MTy.infer _ => some (mark_ambiguous candidate_set)
  | _ => some candidate_set

/-- Model of `assemble_candidates_from_impls`: select the trait
obligation; `Ok(None)` marks ambiguity, `Err` marks error, otherwise
the impl source is pushed when eligible per the specialization
policy. -/
def assemble_candidates_from_impls (s : InferState) (tcx : Tcx) (obligation : MProjObligation)
    (obligation_trait_ref : MTraitRef) (candidate_set : ProjectionTyCandidateSet) :
    Option ProjectionTyCandidateSet :=
  let trait_obligation : MObligation :=
    { cause := obligation.cause, recursionDepth := obligation.recursionDepth,
      paramEnv := obligation.paramEnv,
      predicate := MPredicate.traitPred obligation_trait_ref }
  match tcx.select trait_obligation with
  | SelectResult.okNone => some (mark_ambiguous candidate_set)
  | SelectResult.err e => some (mark_error candidate_set e)
  | SelectResult.okSome impl_source =>
    match impl_source with
    | ImplSource.autoImpl => some candidate_set
    | ImplSource.builtin => some candidate_set
    | _ =>
      let eligible : Bool :=
        match impl_source with
        | ImplSource.closure _ => true
        | ImplSource.generator _ => true
        | ImplSource.fnPointer _ => true
        | ImplSource.object => true
        | ImplSource.traitAlias _ => true
        | ImplSource.userDefined isFinal stillSpec _ =>
          if isFinal then true
          else if obligation.paramEnv.reveal == Reveal.all then ! stillSpec else false
        | ImplSource.discriminantKind =>
          match resolveTy s obligation.predicate.selfTy with
          | MTy.base _ => true
          | MTy.ctor _ _ => true
          | MTy.infer _ => false
          | MTy.param _ => false
          | MTy.proj _ _ _ => false
          | MTy.opaq _ _ _ => false
          | MTy.err => false
        | _ => false
      if eligible then
        match push_candidate candidate_set (ProjectionTyCandidate.select impl_source) with
        | some cs => some cs.1
        | none => none
      else
        some candidate_set

/-- Model of `ProjectedTy`. -/
inductive ProjectedTy where
  | progress : Progress → ProjectedTy
  | noProgress : MTy → ProjectedTy
deriving DecidableEq, Repr

/-- Model of `ProjectionTyError`. -/
inductive ProjectionTyError where
  | tooManyCandidates
  | traitSelectionError : MSelectionError → ProjectionTyError
deriving DecidableEq, Repr

/-- Model of `project_type`: candidate assembly in fixed priority order
(param env, trait def, impls) followed by the dispatch on the resulting
candidate set; confirmation of a chosen candidate is delegated to the
capability record. -/
def project_type (s : InferState) (tcx : Tcx) (obligation : MProjObligation) :
    Option (Except ProjectionTyError ProjectedTy) :=
  if tcx.recursionLimit < obligation.recursionDepth then
    some (Except.error (ProjectionTyError.traitSelectionError MSelectionError.overflow))
  else
    let obligation_trait_ref := projTraitRef tcx obligation.predicate
    if references_error obligation_trait_ref.selfTy then
      some (Except.ok (ProjectedTy.progress { ty := MTy.err, obligations := [] }))
    else
      match assemble_candidates_from_param_env s tcx obligation obligation_trait_ref
        ProjectionTyCandidateSet.none with
      | none => none
      | some cs1 =>
        match assemble_candidates_from_trait_def s tcx obligation obligation_trait_ref cs1 with
        | none => none
        | some cs2 =>
          match assemble_candidates_from_impls s tcx obligation obligation_trait_ref cs2 with
          | none => none
          | some cs3 =>
            match cs3 with
            | ProjectionTyCandidateSet.single candidate =>
              some (Except.ok (ProjectedTy.progress (tcx.confirmResult obligation candidate)))
            | ProjectionTyCandidateSet.none =>
              some (Except.ok (ProjectedTy.noProgress
                (MTy.proj obligation.predicate.itemDefId obligation.predicate.selfTy
                  obligation.predicate.rest)))
            | ProjectionTyCandidateSet.error e =>
              some (Except.error (ProjectionTyError.traitSelectionError e))
            | ProjectionTyCandidateSet.ambiguous =>
              some (Except.error ProjectionTyError.tooManyCandidates)

/-- Model of the `InProgress` marker. -/
inductive MInProgress where
  | inProgress
deriving DecidableEq, Repr

mutual

/-- Model of `opt_normalize_projection_type`, mutually recursive with
the associated-type normalizer and the fallback wrapper exactly as in
the source (re-normalization of a freshly projected type runs the
normalizer, whose projection case calls back into
`normalize_projection_type`).  An explicit fuel bounds the recursion;
fuel exhaustion yields `Option.none` (as does any panic on the way).
The result triple is (new state, the caller's obligation list with
everything this call appended, `Ok (some ty)` on success / `Ok none`
on ambiguity / `Err InProgress` on recursive re-entry). -/
def opt_normalize_projection_type (fuel : Nat) (tcx : Tcx) (s : SelState)
    (param_env : MParamEnv) (projection_ty : MProjectionTy) (cause : Nat) (depth : Nat)
    (obligations : List MObligation) :
    Option (SelState × List MObligation × Except MInProgress (Option MTy)) :=
  match fuel with
  | 0 => none
  | fuel + 1 =>
    let projection_ty := resolveProj s.infer projection_ty
    let cache_key := projection_ty
    match cacheLookup s.cache cache_key with
    | some ProjectionCacheEntry.ambiguous =>
      some (s, obligations, Except.ok none)
    | some ProjectionCacheEntry.inProgress =>
      some (s, obligations, Except.error MInProgress.inProgress)
    | some (ProjectionCacheEntry.normalizedTy ty) =>
      let stateAndObls :=
        if ¬ hasUnresolvedVars s.infer ty.value then
          ({ s with cache := complete_normalized s.cache cache_key ty }, obligations)
        else
          (s, obligations ++ ty.obligations)
      some (stateAndObls.1,
        stateAndObls.2 ++
          [get_paranoid_cache_value_obligation tcx param_env projection_ty cause depth],
        Except.ok (some ty.value))
    | some ProjectionCacheEntry.error =>
      let ir := normalize_to_error tcx param_env projection_ty cause depth s.infer
      some ({ s with infer := ir.1 }, obligations ++ ir.2.obligations,
        Except.ok (some ir.2.value))
    | none =>
      let s1 : SelState := { s with cache := cacheInsert s.cache cache_key ProjectionCacheEntry.inProgress }
      let obligation : MProjObligation :=
        { cause := cause, recursionDepth := depth, paramEnv := param_env,
          predicate := projection_ty }
      match project_type s1.infer tcx obligation with
      | none => none
      | some (Except.ok (ProjectedTy.progress prog)) =>
        let afterNorm : Option (SelState × List MObligation × MTy) :=
          if has_projections prog.ty then
            assocTypeNormalizerFold fuel tcx s1 param_env cause (depth + 1)
              prog.obligations prog.ty
          else
            some (s1, prog.obligations, prog.ty)
        match afterNorm with
        | none => none
        | some (s2, projected_obligations, normalized_ty) =>
          let result : MNormalizedTy :=
            { value := normalized_ty, obligations := projected_obligations }
          let cache_value := prune_cache_value_obligations s2.infer result
          some ({ s2 with cache := insert_ty s2.cache cache_key cache_value },
            obligations ++ result.obligations, Except.ok (some result.value))
      | some (Except.ok (ProjectedTy.noProgress projected_ty)) =>
        let result : MNormalizedTy := { value := projected_ty, obligations := [] }
        some ({ s1 with cache := insert_ty s1.cache cache_key result },
          obligations, Except.ok (some result.value))
      | some (Except.error ProjectionTyError.tooManyCandidates) =>
        some ({ s1 with cache := cacheAmbiguous s1.cache cache_key },
          obligations, Except.ok none)
      | some (Except.error (ProjectionTyError.traitSelectionError _)) =>
        let s1e : SelState := { s1 with cache := cacheError s1.cache cache_key }
        let ir := normalize_to_error tcx param_env projection_ty cause depth s1e.infer
        some ({ s1e with infer := ir.1 }, obligations ++ ir.2.obligations,
          Except.ok (some ir.2.value))
termination_by structural fuel

def assocTypeNormalizerFold (fuel : Nat) (tcx : Tcx) (s : SelState) (param_env : MParamEnv)
    (cause : Nat) (depth : Nat) (obligations : List MObligation) (value : MTy) :
    Option (SelState × List MObligation × MTy) :=
  match fuel with
  | 0 => none
  | fuel + 1 =>
    let value := resolveTy s.infer value
    if ¬ has_projections value then
      some (s, obligations, value)
    else
      assocTypeNormalizerFoldTy fuel tcx s param_env cause depth obligations value
termination_by structural fuel

def assocTypeNormalizerFoldTy (fuel : Nat) (tcx : Tcx) (s : SelState) (param_env : MParamEnv)
    (cause : Nat) (depth : Nat) (obligations : List MObligation) (ty : MTy) :
    Option (SelState × List MObligation × MTy) :=
  match fuel with
  | 0 => none
  | fuel + 1 =>
    if ¬ has_projections ty then
      some (s, obligations, ty)
    else
      match ty with
      | MTy.ctor n t =>
        match assocTypeNormalizerFoldTy fuel tcx s param_env cause depth obligations t with
        | none => none
        | some (s1, o1, t1) => some (s1, o1, MTy.ctor n t1)
      | MTy.proj item t rest =>
        match assocTypeNormalizerFoldTy fuel tcx s param_env cause depth obligations t with
        | none => none
        | some (s1, o1, t1) =>
          normalize_projection_type fuel tcx s1 param_env
            { itemDefId := item, selfTy := t1, rest := rest } cause depth o1
      | MTy.opaq defId t rest =>
        match assocTypeNormalizerFoldTy fuel tcx s param_env cause depth obligations t with
        | none => none
        | some (s1, o1, t1) =>
          match param_env.reveal with
          | Reveal.userFacing => some (s1, o1, MTy.opaq defId t1 rest)
          | Reveal.all =>
            if tcx.recursionLimit < depth then none
            else
              let concrete_ty := tcx.typeOfOpaque defId t1 rest
              assocTypeNormalizerFoldTy fuel tcx s1 param_env cause (depth + 1) o1 concrete_ty
      | _ => some (s, obligations, ty)
termination_by structural fuel

def normalize_projection_type (fuel : Nat) (tcx : Tcx) (s : SelState) (param_env : MParamEnv)
    (projection_ty : MProjectionTy) (cause : Nat) (depth : Nat)
    (obligations : List MObligation) :
    Option (SelState × List MObligation × MTy) :=
  match fuel with
  | 0 => none
  | fuel + 1 =>
    match opt_normalize_projection_type fuel tcx s param_env projection_ty cause depth
      obligations with
    | none => none
    | some (s1, obls1, r) =>
      match r with
      | Except.ok (some ty) => some (s1, obls1, ty)
      | _ =>
        let ty_var := MTy.infer s1.infer.nextVar
        let s2 : SelState := { s1 with infer := { s1.infer with nextVar := s1.infer.nextVar + 1 } }
        let projection : MProjectionPredicate := { projectionTy := projection_ty, ty := ty_var }
        let obligation : MObligation :=
          { cause := cause, recursionDepth := depth + 1, paramEnv := param_env,
            predicate := MPredicate.projectionPred projection }
        some (s2, obls1 ++ [obligation], ty_var)
termination_by structural fuel

end

/-- Model of `MismatchedProjectionTypes`. -/
inductive MMismatch where
  | mismatch
deriving DecidableEq, Repr

/-- Model of `project_and_unify_type`: normalize the projection, then
unify the normalized type with the predicate's expected type. -/
def project_and_unify_type (fuel : Nat) (tcx : Tcx) (s : SelState) (param_env : MParamEnv)
    (data : MProjectionPredicate) (cause : Nat) (depth : Nat) :
    Option (SelState × Except MMismatch (Except MInProgress (Option (List MObligation)))) :=
  match opt_normalize_projection_type fuel tcx s param_env data.projectionTy cause depth [] with
  | none => none
  | some (s1, obls, Except.ok (some normalized_ty)) =>
    match tcx.eqTys s1.infer normalized_ty data.ty with
    | some io =>
      some ({ s1 with infer := io.2 }, Except.ok (Except.ok (some (obls ++ io.1))))
    | none => some (s1, Except.error MMismatch.mismatch)
  | some (s1, _, Except.ok none) => some (s1, Except.ok (Except.ok none))
  | some (s1, _, Except.error MInProgress.inProgress) =>
    some (s1, Except.ok (Except.error MInProgress.inProgress))

/-- Modelled from the spec: `InferCtxt::commit_if_ok` — the snapshot
capability of the inference context (§1 treats inference as an external
collaborator).  The body runs on the current state; an `Ok` result
commits the state the body produced, an `Err` result rolls back to the
state from before the call. -/
def commit_if_ok {ε α : Type} (s : SelState)
    (f : SelState → Option (SelState × Except ε α)) : Option (SelState × Except ε α) :=
  match f s with
  | none => none
  | some (s1, Except.ok a) => some (s1, Except.ok a)
  | some (_, Except.error e) => some (s, Except.error e)

/-- Model of `poly_project_and_unify_type`: the whole
projection-and-unify computation runs inside `commit_if_ok`
(binder replacement is the identity in this binder-free model). -/
def poly_project_and_unify_type (fuel : Nat) (tcx : Tcx) (s : SelState) (param_env : MParamEnv)
    (data : MProjectionPredicate) (cause : Nat) (depth : Nat) :
    Option (SelState × Except MMismatch (Except MInProgress (Option (List MObligation)))) :=
  commit_if_ok s (fun s0 => project_and_unify_type fuel tcx s0 param_env data cause depth)

/-- Model of `PendingPredicateObligation`. -/
structure PendingPredicateObligation where
  obligation : MObligation
  stalled_on : List Nat
deriving DecidableEq, Repr

/-- Model of `FulfillmentErrorCode`. -/
inductive MFulfillmentErrorCode where
  | codeSelectionError : MSelectionError → MFulfillmentErrorCode
  | codeProjectionError : Nat → MFulfillmentErrorCode
  | codeAmbiguity
  | codeOther : Nat → MFulfillmentErrorCode
deriving DecidableEq, Repr

/-- Model of `ProcessResult`. -/
inductive ProcessResult where
  | unchanged
  | changed : List PendingPredicateObligation → ProcessResult
  | error : MFulfillmentErrorCode → ProcessResult
deriving DecidableEq, Repr

/-- Model of `mk_pending`. -/
def mk_pending (os : List MObligation) : List PendingPredicateObligation :=
  os.map (fun o => { obligation := o, stalled_on := [] })

/-- Model of `trait_ref_infer_vars`: resolve the trait ref and collect
the inference variables in its substitutions. -/
def trait_ref_infer_vars (s : InferState) (trait_ref : MTraitRef) : List Nat :=
  collectInferVars (resolveTy s trait_ref.selfTy)

/-- Modelled from the spec: the remaining per-kind capability checks of
the fulfillment driver (outlives, well-formedness, subtyping, const
evaluation, …), each a direct non-recursive check (§4.5). -/
structure FulfillCtx where
  tcx : Tcx
  inferVarChanged : Nat → Bool
  predicateMustHold : MObligation → Bool
  otherResult : MObligation → ProcessResult

/-- Model of `FulfillProcessor::process_obligation`: the stall check
over `stalled_on` (1 / 0 / many variables), the predicate resolution,
and the dispatch on the predicate kind.  The trait and projection arms
are translated from the source; the remaining kinds are delegated to
the capability record. -/
def process_obligation (fuel : Nat) (fc : FulfillCtx) (s : SelState)
    (pending_obligation : PendingPredicateObligation) :
    Option (SelState × PendingPredicateObligation × ProcessResult) :=
  let change : Bool :=
    match pending_obligation.stalled_on with
    | [v] => fc.inferVarChanged v
    | [] => true
    | vs => vs.any fc.inferVarChanged
  if ¬ change then
    some (s, pending_obligation, ProcessResult.unchanged)
  else
    let obligation0 := pending_obligation.obligation
    let obligation :=
      if predHasInfer obligation0.predicate then
        { obligation0 with predicate := resolvePred s.infer obligation0.predicate }
      else obligation0
    let pending1 : PendingPredicateObligation := { obligation := obligation, stalled_on := [] }
    match obligation.predicate with
    | MPredicate.traitPred tr =>
      if predIsGlobal obligation.predicate && fc.predicateMustHold obligation then
        some (s, pending1, ProcessResult.changed [])
      else
        match fc.tcx.select obligation with
        | SelectResult.okSome impl_source =>
          some (s, pending1, ProcessResult.changed (mk_pending (implNested impl_source)))
        | SelectResult.okNone =>
          some (s, { pending1 with stalled_on := trait_ref_infer_vars s.infer tr },
            ProcessResult.unchanged)
        | SelectResult.err e =>
          some (s, pending1, ProcessResult.error (MFulfillmentErrorCode.codeSelectionError e))
    | MPredicate.projectionPred data =>
      match poly_project_and_unify_type fuel fc.tcx s obligation.paramEnv data obligation.cause
        obligation.recursionDepth with
      | none => none
      | some (s1, Except.ok (Except.ok (some os))) =>
        some (s1, pending1, ProcessResult.changed (mk_pending os))
      | some (s1, Except.ok (Except.ok none)) =>
        some (s1,
          { pending1 with
            stalled_on := trait_ref_infer_vars s1.infer (projTraitRef fc.tcx data.projectionTy) },
          ProcessResult.unchanged)
      | some (s1, Except.ok (Except.error MInProgress.inProgress)) =>
        some (s1, pending1, ProcessResult.changed (mk_pending [pending1.obligation]))
      | some (s1, Except.error MMismatch.mismatch) =>
        some (s1, pending1, ProcessResult.error (MFulfillmentErrorCode.codeProjectionError 0))
    | MPredicate.otherPred _ => some (s, pending1, fc.otherResult obligation)

/-- Model of `obligation_forest::Error`: an error code plus the
backtrace of obligations recorded for diagnostics. -/
structure ForestError where
  error : MFulfillmentErrorCode
  backtrace : List MObligation
deriving DecidableEq, Repr

/-- Model of `FulfillmentError`. -/
structure MFulfillmentError where
  obligation : MObligation
  code : MFulfillmentErrorCode
deriving DecidableEq, Repr

/-- Model of `to_fulfillment_error`: take the first obligation of the
backtrace (`error.backtrace.into_iter().next().unwrap()`).  The empty
arm models the `unwrap` panic with a dummy obligation; every backtrace
the forest constructs is non-empty. -/
def to_fulfillment_error (error : ForestError) : MFulfillmentError :=
  match error.backtrace with
  | obligation :: _ => { obligation := obligation, code := error.error }
  | [] =>
    { obligation :=
        { cause := 0, recursionDepth := 0,
          paramEnv := { callerBounds := [], reveal := Reveal.userFacing },
          predicate := MPredicate.otherPred 0 },
      code := error.error }

/-- Modelled from the spec: one full pass of
`ObligationForest::process_obligations` (§4.1) — every pending node is
offered to the processor once; `Unchanged` leaves it pending,
`Changed(children)` replaces it by its children as new pending nodes,
`Error` removes it and records an error; the pass is stalled when no
node changed or errored. -/
def processObligationsPass (proc : PendingPredicateObligation → PendingPredicateObligation × ProcessResult) :
    List PendingPredicateObligation →
    List PendingPredicateObligation × List ForestError × Bool
  | [] => ([], [], true)
  | node :: rest =>
    let pr := proc node
    let tail := processObligationsPass proc rest
    match pr.2 with
    | ProcessResult.unchanged => (pr.1 :: tail.1, tail.2.1, tail.2.2)
    | ProcessResult.changed children => (children ++ tail.1, tail.2.1, false)
    | ProcessResult.error e =>
      (tail.1, { error := e, backtrace := [pr.1.obligation] } :: tail.2.1, false)

/-- Model of the loop inside `FulfillmentContext::select`: run passes,
extending the error batch with each pass's errors mapped through
`to_fulfillment_error`, until a pass stalls.  The `Bool` records
whether a stall was reached within the supplied fuel. -/
def selectLoop (proc : PendingPredicateObligation → PendingPredicateObligation × ProcessResult) :
    Nat → List PendingPredicateObligation → List MFulfillmentError →
    List PendingPredicateObligation × List MFulfillmentError × Bool
  | 0, pending, errors => (pending, errors, false)
  | fuel + 1, pending, errors =>
    let outcome := processObligationsPass proc pending
    let errors2 := errors ++ outcome.2.1.map to_fulfillment_error
    if outcome.2.2 then (outcome.1, errors2, true)
    else selectLoop proc fuel outcome.1 errors2

/-- Model of `FulfillmentContext::select`: run the loop, then return
`Ok(())` when the batch is empty and `Err(errors)` otherwise.  The
remaining pending obligations and the stall flag are carried alongside
the result. -/
def fulfillmentSelect (proc : PendingPredicateObligation → PendingPredicateObligation × ProcessResult)
    (fuel : Nat) (pending : List PendingPredicateObligation) :
    List PendingPredicateObligation × Except (List MFulfillmentError) Unit × Bool :=
  match selectLoop proc fuel pending [] with
  | (pending2, errors, stalled) =>
    (pending2, if errors.isEmpty then Except.ok () else Except.error errors, stalled)

/-- Model of `select_all_or_error`: `select_where_possible()?` (an
error batch from the fixpoint run is returned as is), then every
obligation still pending is converted into a `CodeAmbiguity` error. -/
def select_all_or_error (proc : PendingPredicateObligation → PendingPredicateObligation × ProcessResult)
    (fuel : Nat) (pending : List PendingPredicateObligation) :
    Except (List MFulfillmentError) Unit :=
  match fulfillmentSelect proc fuel pending with
  | (_, Except.error errors, _) => Except.error errors
  | (pending2, Except.ok _, _) =>
    let errors := pending2.map (fun o =>
      to_fulfillment_error { error := MFulfillmentErrorCode.codeAmbiguity,
                             backtrace := [o.obligation] })
    if errors.isEmpty then Except.ok () else Except.error errors

/-- Modelled from the spec: an obligation-forest node with its parent
back-reference stored as an index (§3, §9: arena-allocated nodes
addressed by stable integer indices, parent links stored as
indices). -/
structure ForestNode where
  obligation : MObligation
  parent : Option Nat
deriving DecidableEq, Repr

/-- Walk from a node up through its parents, collecting the
obligations node-to-root; the walk is bounded by a fuel. -/
def ancestors : Nat → List ForestNode → Nat → List MObligation
  | 0, _, _ => []
  | fuelN + 1, nodes, i =>
    match nodes[i]? with
    | none => []
    | some node =>
      match node.parent with
      | none => [node.obligation]
      | some p => node.obligation :: ancestors fuelN nodes p

/-- The obligation of the root ancestor of a node, when the parent walk
reaches a parentless node within the fuel. -/
def rootOf : Nat → List ForestNode → Nat → Option MObligation
  | 0, _, _ => none
  | fuelN + 1, nodes, i =>
    match nodes[i]? with
    | none => none
    | some node =>
      match node.parent with
      | none => some node.obligation
      | some p => rootOf fuelN nodes p

/-- Modelled from the spec: the forest's `error_at` — on an error the
chain from the root to the failing node is captured as the backtrace
(§4.1: "captures the chain from root to this node as a backtrace"). -/
def error_at (fuelN : Nat) (nodes : List ForestNode) (i : Nat) (e : MFulfillmentErrorCode) :
    ForestError :=
  { error := e, backtrace := (ancestors fuelN nodes i).reverse }

/-- Decidable equality for `Except`, used to evaluate result
comparisons on concrete inputs. -/
instance {e a : Type} [DecidableEq e] [DecidableEq a] : DecidableEq (Except e a) := fun x y =>
  match x, y with
  | Except.ok v, Except.ok w =>
    if h : v = w then isTrue (by rw [h]) else isFalse (fun hh => by cases hh; exact h rfl)
  | Except.error v, Except.error w =>
    if h : v = w then isTrue (by rw [h]) else isFalse (fun hh => by cases hh; exact h rfl)
  | Except.ok _, Except.error _ => isFalse (fun hh => by cases hh)
  | Except.error _, Except.ok _ => isFalse (fun hh => by cases hh)

/-- A concrete capability bundle for scenario runs: one trait (id 10),
no trait-definition bounds, a selection capability that always answers
`Ok(None)` (not enough information), confirmation returning the error
type (never reached in the scenarios), unification by syntactic
equality, and a recursion limit of 64. -/
def tcx0 : Tcx :=
  { traitOfItem := fun _ => 10, traitDefBounds := fun _ _ _ => [],
    select := fun _ => SelectResult.okNone,
    confirmResult := fun _ _ => { ty := MTy.err, obligations := [] },
    eqTys := fun st a b => if a = b then some ([], st) else none,
    typeOfOpaque := fun _ _ _ => MTy.err, recursionLimit := 64 }

/-- An empty user-facing param env. -/
def pe0 : MParamEnv := { callerBounds := [], reveal := Reveal.userFacing }

/-- A fully resolved projection `<base 2 as trait 10>::item 5`. -/
def projT0 : MProjectionTy := { itemDefId := 5, selfTy := MTy.base 2, rest := 0 }

/-- A sample projection predicate over `projT0`. -/
def pd1 : MProjectionPredicate := { projectionTy := projT0, ty := MTy.base 0 }

/-- A second, distinct projection predicate over `projT0`. -/
def pd2 : MProjectionPredicate := { projectionTy := projT0, ty := MTy.base 1 }

/-- A sample nested obligation recorded in a cache entry. -/
def obX : MObligation :=
  { cause := 7, recursionDepth := 0, paramEnv := pe0, predicate := MPredicate.otherPred 7 }

/-- A cached normalization result with a nested obligation. -/
def nt3 : MNormalizedTy := { value := MTy.base 9, obligations := [obX] }

/-- A state whose cache holds a `NormalizedTy` entry for `projT0`. -/
def s3w : SelState :=
  { infer := { nextVar := 0, bindings := [] },
    cache := [(projT0, ProjectionCacheEntry.normalizedTy nt3)] }

/-- A state whose cache holds an `Ambiguous` entry for `projT0`. -/
def sAmb : SelState :=
  { infer := { nextVar := 3, bindings := [] },
    cache := [(projT0, ProjectionCacheEntry.ambiguous)] }

/-- A state whose cache holds an `InProgress` entry for `projT0`. -/
def sIP : SelState :=
  { infer := { nextVar := 0, bindings := [] },
    cache := [(projT0, ProjectionCacheEntry.inProgress)] }

/-- A projection predicate over `projT0` used in the re-entry scenario. -/
def data6 : MProjectionPredicate := { projectionTy := projT0, ty := MTy.base 4 }

/-- The obligation carrying `data6`. -/
def ob6 : MObligation :=
  { cause := 1, recursionDepth := 2, paramEnv := pe0,
    predicate := MPredicate.projectionPred data6 }

/-- The pending node carrying `ob6`. -/
def pending6 : PendingPredicateObligation := { obligation := ob6, stalled_on := [] }

/-- A concrete fulfillment context over `tcx0` in which no inference
variable has changed. -/
def fc0 : FulfillCtx :=
  { tcx := tcx0, inferVarChanged := fun _ => false, predicateMustHold := fun _ => false,
    otherResult := fun _ => ProcessResult.unchanged }

/-- A state binding inference variable 0 to `base 4`. -/
def s4w : SelState := { infer := { nextVar := 5, bindings := [(0, MTy.base 4)] }, cache := [] }

/-- The projection `<?0 as Iterator>::Item` with an unresolved
inference-variable self type (the scenario of §8). -/
def proj9 : MProjectionTy := { itemDefId := 5, selfTy := MTy.infer 0, rest := 0 }

/-- The projection predicate `<?0 as Iterator>::Item == base 7`. -/
def data9 : MProjectionPredicate := { projectionTy := proj9, ty := MTy.base 7 }

/-- The obligation carrying `data9`. -/
def ob9 : MObligation :=
  { cause := 0, recursionDepth := 0, paramEnv := pe0,
    predicate := MPredicate.projectionPred data9 }

/-- The pending node carrying `ob9`. -/
def pending9 : PendingPredicateObligation := { obligation := ob9, stalled_on := [] }

/-- The projection-ty obligation for `proj9` handed to `project_type`. -/
def projOb9 : MProjObligation :=
  { cause := 0, recursionDepth := 0, paramEnv := pe0, predicate := proj9 }

/-- A fresh state (no bindings, empty cache) for the scenario run. -/
def s9 : SelState := { infer := { nextVar := 1, bindings := [] }, cache := [] }

/-- The stateless pass processor induced by one `process_obligation`
step of the `<?0 as Iterator>::Item` scenario. -/
def proc9 (p : PendingPredicateObligation) : PendingPredicateObligation × ProcessResult :=
  match process_obligation 1 fc0 s9 p with
  | some r => (r.2.1, r.2.2)
  | none => (p, ProcessResult.unchanged)

/-- An obligation for which the batch-error scenario's processor
reports an error. -/
def obA : MObligation :=
  { cause := 0, recursionDepth := 0, paramEnv := pe0, predicate := MPredicate.otherPred 0 }

/-- An obligation which the batch-error scenario's processor leaves
pending forever. -/
def obB : MObligation :=
  { cause := 0, recursionDepth := 0, paramEnv := pe0, predicate := MPredicate.otherPred 1 }

/-- The pending node carrying `obA`. -/
def pA : PendingPredicateObligation := { obligation := obA, stalled_on := [] }

/-- The pending node carrying `obB`. -/
def pB : PendingPredicateObligation := { obligation := obB, stalled_on := [] }

/-- A processor that errors on `obA` and leaves everything else
unchanged. -/
def procC7 (p : PendingPredicateObligation) : PendingPredicateObligation × ProcessResult :=
  match p.obligation.predicate with
  | MPredicate.otherPred 0 =>
    (p, ProcessResult.error (MFulfillmentErrorCode.codeSelectionError (MSelectionError.other 0)))
  | _ => (p, ProcessResult.unchanged)

/-- A processor that leaves every node unchanged. -/
def procU (p : PendingPredicateObligation) : PendingPredicateObligation × ProcessResult :=
  (p, ProcessResult.unchanged)

/-- The root obligation of the backtrace scenario. -/
def obRoot : MObligation :=
  { cause := 3, recursionDepth := 0, paramEnv := pe0, predicate := MPredicate.otherPred 30 }

/-- The child (failing) obligation of the backtrace scenario. -/
def obChild : MObligation :=
  { cause := 4, recursionDepth := 1, paramEnv := pe0, predicate := MPredicate.otherPred 40 }

/-- A two-node forest: the child at index 1 points to the root at
index 0. -/
def nodes8 : List ForestNode :=
  [{ obligation := obRoot, parent := none }, { obligation := obChild, parent := some 0 }]

/-- A projection predicate whose expected type mismatches the cached
normalized type of `projT0` (`base 9` vs `base 1`). -/
def dataM : MProjectionPredicate := { projectionTy := projT0, ty := MTy.base 1 }

/-- Claim C1 (counterexample): pushing an ambient-bound (`ParamEnv`)
candidate when the current `Single` candidate is not ambient-bound
does not keep the ambient-bound one — that push hits the
`unreachable!()` arm of the source match (modelled by `none`), so the
claim's "or vice versa" direction fails on the code. -/
theorem c1_push_candidate_counterexample :
    push_candidate (ProjectionTyCandidateSet.single (ProjectionTyCandidate.traitDef pd1))
        (ProjectionTyCandidate.paramEnv pd2) = none ∧
    push_candidate (ProjectionTyCandidateSet.single (ProjectionTyCandidate.traitDef pd1))
        (ProjectionTyCandidate.paramEnv pd2) ≠
      some (ProjectionTyCandidateSet.single (ProjectionTyCandidate.paramEnv pd2), false) ∧
    push_candidate (ProjectionTyCandidateSet.single (ProjectionTyCandidate.traitDef pd1))
        (ProjectionTyCandidate.paramEnv pd2) ≠
      some (ProjectionTyCandidateSet.single (ProjectionTyCandidate.paramEnv pd2), true) := by
  refine ⟨rfl, ?_, ?_⟩ <;> decide

/-- Claim C1 (amended): pushing a candidate equal to the current
`Single` candidate leaves the set unchanged (deduplication); pushing a
non-ambient-bound candidate when the current `Single` candidate is
ambient-bound keeps the ambient-bound one and never yields
`Ambiguous`; pushing two distinct ambient-bound candidates, or any two
distinct otherwise-conflicting non-ambient candidates, flips the set
to `Ambiguous`.  (Pushing an ambient-bound candidate onto a
non-ambient-bound `Single` panics — the `unreachable!()` arm — and is
excluded; assembly order makes it unreachable.) -/
theorem c1_push_candidate_amended (c d : ProjectionTyCandidate) (p q : MProjectionPredicate) :
    (push_candidate (ProjectionTyCandidateSet.single c) c =
      some (ProjectionTyCandidateSet.single c, false)) ∧
    (isParamEnvCandidate d = false →
      push_candidate (ProjectionTyCandidateSet.single (ProjectionTyCandidate.paramEnv p)) d =
        some (ProjectionTyCandidateSet.single (ProjectionTyCandidate.paramEnv p), false)) ∧
    (p ≠ q →
      push_candidate (ProjectionTyCandidateSet.single (ProjectionTyCandidate.paramEnv p))
          (ProjectionTyCandidate.paramEnv q) =
        some (ProjectionTyCandidateSet.ambiguous, false)) ∧
    (isParamEnvCandidate c = false → isParamEnvCandidate d = false → c ≠ d →
      push_candidate (ProjectionTyCandidateSet.single c) d =
        some (ProjectionTyCandidateSet.ambiguous, false)) := by
  refine ⟨by simp [push_candidate], ?_, ?_, ?_⟩
  · intro hd
    cases d with
    | paramEnv pd => simp [isParamEnvCandidate] at hd
    | traitDef pd => simp [push_candidate]
    | select src => simp [push_candidate]
  · intro hpq
    simp [push_candidate, hpq]
  · intro hc hd hcd
    cases c <;> cases d <;>
      simp_all [push_candidate, isParamEnvCandidate]

/-- Claim C1 (witness): the amended theorem applied to distinct
trait-def and impl-derived candidates yields `Ambiguous`. -/
theorem c1_push_candidate_witness :
    (ProjectionTyCandidate.traitDef pd1 ≠ ProjectionTyCandidate.select ImplSource.object) ∧
    push_candidate (ProjectionTyCandidateSet.single (ProjectionTyCandidate.traitDef pd1))
        (ProjectionTyCandidate.select ImplSource.object) =
      some (ProjectionTyCandidateSet.ambiguous, false) :=
  ⟨by decide,
   (c1_push_candidate_amended (ProjectionTyCandidate.traitDef pd1)
       (ProjectionTyCandidate.select ImplSource.object) pd1 pd2).2.2.2
     (by decide) (by decide) (by decide)⟩

/-- Claim C5: once the projection cache holds `Ambiguous` for the
resolved key, `opt_normalize_projection_type` returns the ambiguity
result (no type) again, with state and obligations untouched — and the
equation holds for every capability bundle `tcx`, so candidate
assembly (`project_type`) is not consulted a second time. -/
theorem c5_ambiguity_cache_monotone (fuel : Nat) (tcx : Tcx) (s : SelState)
    (param_env : MParamEnv) (projection_ty : MProjectionTy) (cause depth : Nat)
    (obligations : List MObligation)
    (h : cacheLookup s.cache (resolveProj s.infer projection_ty) =
      some ProjectionCacheEntry.ambiguous) :
    opt_normalize_projection_type (fuel + 1) tcx s param_env projection_ty cause depth
        obligations = some (s, obligations, Except.ok none) := by
  simp only [opt_normalize_projection_type, h]

/-- Claim C5 (witness): the ambiguity equation at a concrete cached
state, independent of the capability bundle. -/
theorem c5_ambiguity_cache_monotone_witness :
    (cacheLookup sAmb.cache (resolveProj sAmb.infer projT0) =
      some ProjectionCacheEntry.ambiguous) ∧
    opt_normalize_projection_type 1 tcx0 sAmb pe0 projT0 0 0 [] =
      some (sAmb, [], Except.ok none) :=
  ⟨rfl, c5_ambiguity_cache_monotone 0 tcx0 sAmb pe0 projT0 0 0 [] rfl⟩

/-- Claim C3: every `NormalizedTy` cache read returns the cached type
and appends the paranoid trait-bound obligation
(`get_paranoid_cache_value_obligation`) as the last obligation — in
both the fully-resolved branch (which completes the entry and re-adds
no nested obligations) and the unresolved branch (which re-adds the
entry's nested obligations first). -/
theorem c3_cache_hit_paranoid_obligation (fuel : Nat) (tcx : Tcx) (s : SelState)
    (param_env : MParamEnv) (projection_ty : MProjectionTy) (cause depth : Nat)
    (obligations : List MObligation) (nt : MNormalizedTy)
    (h : cacheLookup s.cache (resolveProj s.infer projection_ty) =
      some (ProjectionCacheEntry.normalizedTy nt)) :
    opt_normalize_projection_type (fuel + 1) tcx s param_env projection_ty cause depth
        obligations =
      some
        ((if ¬ hasUnresolvedVars s.infer nt.value then
            { s with cache := complete_normalized s.cache (resolveProj s.infer projection_ty) nt }
          else s),
         (if ¬ hasUnresolvedVars s.infer nt.value then obligations
          else obligations ++ nt.obligations) ++
           [get_paranoid_cache_value_obligation tcx param_env
             (resolveProj s.infer projection_ty) cause depth],
         Except.ok (some nt.value)) := by
  by_cases hv : hasUnresolvedVars s.infer nt.value <;>
    simp only [opt_normalize_projection_type, h, hv] <;> simp

/-- Claim C3 (witness): the cache-hit equation at a concrete cached
state whose entry is fully resolved. -/
theorem c3_cache_hit_paranoid_obligation_witness :
    (cacheLookup s3w.cache (resolveProj s3w.infer projT0) =
      some (ProjectionCacheEntry.normalizedTy nt3)) ∧
    opt_normalize_projection_type 1 tcx0 s3w pe0 projT0 0 0 [] =
      some
        ((if ¬ hasUnresolvedVars s3w.infer nt3.value then
            { s3w with cache := complete_normalized s3w.cache (resolveProj s3w.infer projT0) nt3 }
          else s3w),
         (if ¬ hasUnresolvedVars s3w.infer nt3.value then ([] : List MObligation)
          else [] ++ nt3.obligations) ++
           [get_paranoid_cache_value_obligation tcx0 pe0 (resolveProj s3w.infer projT0) 0 0],
         Except.ok (some nt3.value)) :=
  ⟨rfl, c3_cache_hit_paranoid_obligation 0 tcx0 s3w pe0 projT0 0 0 [] nt3 rfl⟩

/-- Helper: when `opt_normalize_projection_type` reports ambiguity
(`Ok none`), it has appended nothing to the caller's obligation
list (both the cached-ambiguity path and the fresh
`TooManyCandidates` path leave the list untouched). -/
theorem opt_ok_none_leaves_obligations (fuel : Nat) (tcx : Tcx) (s : SelState)
    (param_env : MParamEnv) (projection_ty : MProjectionTy) (cause depth : Nat)
    (obligations : List MObligation) (s1 : SelState) (obls1 : List MObligation)
    (h : opt_normalize_projection_type fuel tcx s param_env projection_ty cause depth
      obligations = some (s1, obls1, Except.ok none)) :
    obls1 = obligations := by
  cases fuel with
  | zero => simp [opt_normalize_projection_type] at h
  | succ fuel =>
    simp only [opt_normalize_projection_type] at h
    split at h
    all_goals first
      | (simp only [Option.some.injEq, Prod.mk.injEq] at h; exact h.2.1.symm)
      | simp at h
      | (split at h
         all_goals first
           | (simp only [Option.some.injEq, Prod.mk.injEq] at h; exact h.2.1.symm)
           | simp at h
           | (split at h
              all_goals first
                | (simp only [Option.some.injEq, Prod.mk.injEq] at h; exact h.2.1.symm)
                | simp at h))

/-- Claim C2: when resolution bottoms out in ambiguity
(`opt_normalize_projection_type` yields no type),
`normalize_projection_type` returns a freshly created inference
variable and appends to the caller's obligation list exactly one
deferred projection obligation equating the original projection with
that variable, at recursion depth `depth + 1`. -/
theorem c2_ambiguity_fresh_variable (fuel : Nat) (tcx : Tcx) (s : SelState)
    (param_env : MParamEnv) (projection_ty : MProjectionTy) (cause depth : Nat)
    (obligations : List MObligation) (s1 : SelState) (obls1 : List MObligation)
    (h : opt_normalize_projection_type fuel tcx s param_env projection_ty cause depth
      obligations = some (s1, obls1, Except.ok none)) :
    obls1 = obligations ∧
    normalize_projection_type (fuel + 1) tcx s param_env projection_ty cause depth obligations =
      some ({ s1 with infer := { s1.infer with nextVar := s1.infer.nextVar + 1 } },
        obligations ++
          [{ cause := cause, recursionDepth := depth + 1, paramEnv := param_env,
             predicate := MPredicate.projectionPred
               { projectionTy := projection_ty, ty := MTy.infer s1.infer.nextVar } }],
        MTy.infer s1.infer.nextVar) := by
  have hob := opt_ok_none_leaves_obligations fuel tcx s param_env projection_ty cause depth
    obligations s1 obls1 h
  subst hob
  exact ⟨rfl, by simp [normalize_projection_type, h]⟩

/-- Claim C2 (witness): the fallback at a concrete ambiguous cache
state — the fresh variable is `?3` and the single deferred obligation
equates `projT0` with it at depth 1. -/
theorem c2_ambiguity_fresh_variable_witness :
    (opt_normalize_projection_type 1 tcx0 sAmb pe0 projT0 0 0 [] =
      some (sAmb, [], Except.ok none)) ∧
    (([] : List MObligation) = [] ∧
     normalize_projection_type 2 tcx0 sAmb pe0 projT0 0 0 [] =
       some ({ sAmb with infer := { sAmb.infer with nextVar := sAmb.infer.nextVar + 1 } },
         [] ++
           [{ cause := 0, recursionDepth := 0 + 1, paramEnv := pe0,
              predicate := MPredicate.projectionPred
                { projectionTy := projT0, ty := MTy.infer sAmb.infer.nextVar } }],
         MTy.infer sAmb.infer.nextVar)) :=
  ⟨rfl, c2_ambiguity_fresh_variable 1 tcx0 sAmb pe0 projT0 0 0 [] sAmb [] rfl⟩

/-- Claim C4: when the value, after resolving known inference
variables, contains no projections, the associated-type normalizer
returns that resolved value unchanged and appends zero obligations; in
particular an already-fully-normalized value (fixed by resolution) is
returned identically, and `fold_ty`'s fast path returns any
projection-free type unchanged. -/
theorem c4_normalizer_identity (fuel : Nat) (tcx : Tcx) (s : SelState) (param_env : MParamEnv)
    (cause depth : Nat) (obligations : List MObligation) (value ty : MTy)
    (h : has_projections (resolveTy s.infer value) = false)
    (hty : has_projections ty = false) :
    assocTypeNormalizerFold (fuel + 1) tcx s param_env cause depth obligations value =
      some (s, obligations, resolveTy s.infer value) ∧
    (resolveTy s.infer value = value →
      assocTypeNormalizerFold (fuel + 1) tcx s param_env cause depth obligations value =
        some (s, obligations, value)) ∧
    assocTypeNormalizerFoldTy (fuel + 1) tcx s param_env cause depth obligations ty =
      some (s, obligations, ty) := by
  refine ⟨?_, ?_, ?_⟩
  · simp [assocTypeNormalizerFold, h]
  · intro hid
    rw [hid] at h
    simp [assocTypeNormalizerFold, hid, h]
  · simp [assocTypeNormalizerFoldTy, hty]

/-- Claim C4 (witness): folding the bound variable `?0` returns its
resolved value `base 4` with no obligations; folding the
projection-free `base 1` is the identity. -/
theorem c4_normalizer_identity_witness :
    (has_projections (resolveTy s4w.infer (MTy.infer 0)) = false) ∧
    (has_projections (MTy.base 1) = false) ∧
    assocTypeNormalizerFold 1 tcx0 s4w pe0 0 0 [] (MTy.infer 0) =
      some (s4w, [], resolveTy s4w.infer (MTy.infer 0)) ∧
    assocTypeNormalizerFold 1 tcx0 s4w pe0 0 0 [] (MTy.base 1) =
      some (s4w, [], MTy.base 1) ∧
    assocTypeNormalizerFoldTy 1 tcx0 s4w pe0 0 0 [] (MTy.base 1) =
      some (s4w, [], MTy.base 1) :=
  ⟨by decide, by decide,
   (c4_normalizer_identity 0 tcx0 s4w pe0 0 0 [] (MTy.infer 0) (MTy.base 1)
     (by decide) (by decide)).1,
   (c4_normalizer_identity 0 tcx0 s4w pe0 0 0 [] (MTy.base 1) (MTy.base 1)
     (by decide) (by decide)).2.1 (by decide),
   (c4_normalizer_identity 0 tcx0 s4w pe0 0 0 [] (MTy.infer 0) (MTy.base 1)
     (by decide) (by decide)).2.2⟩

/-- Claim C6: a normalization request for a key currently marked
`InProgress` in the projection cache returns the `InProgress` signal
with state and obligations untouched (for every capability bundle, so
nothing is recomputed), and the fulfillment driver answers that signal
with `Changed`, re-queueing the same obligation unchanged as the
node's single child. -/
theorem c6_in_progress_requeues (fuel : Nat) (fc : FulfillCtx) (s : SelState)
    (pending : PendingPredicateObligation) (data : MProjectionPredicate)
    (hstall : pending.stalled_on = [])
    (hpred : pending.obligation.predicate = MPredicate.projectionPred data)
    (hres : resolvePred s.infer (MPredicate.projectionPred data) =
      MPredicate.projectionPred data)
    (hcache : cacheLookup s.cache (resolveProj s.infer data.projectionTy) =
      some ProjectionCacheEntry.inProgress) :
    (∀ (tcx : Tcx) (param_env : MParamEnv) (cause depth : Nat)
        (obligations : List MObligation),
      opt_normalize_projection_type (fuel + 1) tcx s param_env data.projectionTy cause depth
          obligations = some (s, obligations, Except.error MInProgress.inProgress)) ∧
    process_obligation (fuel + 1) fc s pending =
      some (s, pending,
        ProcessResult.changed [{ obligation := pending.obligation, stalled_on := [] }]) := by
  have hopt : ∀ (tcx : Tcx) (param_env : MParamEnv) (cause depth : Nat)
      (obligations : List MObligation),
      opt_normalize_projection_type (fuel + 1) tcx s param_env data.projectionTy cause depth
          obligations = some (s, obligations, Except.error MInProgress.inProgress) := by
    intro tcx param_env cause depth obligations
    simp only [opt_normalize_projection_type, hcache]
  refine ⟨hopt, ?_⟩
  obtain ⟨ob, so⟩ := pending
  simp only at hstall hpred
  subst hstall
  obtain ⟨c, d, pe, pr⟩ := ob
  simp only at hpred
  subst hpred
  simp only [process_obligation, predHasInfer, hres, poly_project_and_unify_type,
    commit_if_ok, project_and_unify_type, hopt, mk_pending, List.map, ite_self,
    if_false, Bool.not_true]
  simp

/-- Claim C6 (witness): at a concrete state whose cache holds
`InProgress` for the obligation's key, the driver reports `Changed`
with the obligation itself re-queued unchanged as the single child. -/
theorem c6_in_progress_requeues_witness :
    (cacheLookup sIP.cache (resolveProj sIP.infer data6.projectionTy) =
      some ProjectionCacheEntry.inProgress) ∧
    process_obligation 1 fc0 sIP pending6 =
      some (sIP, pending6,
        ProcessResult.changed [{ obligation := pending6.obligation, stalled_on := [] }]) :=
  ⟨rfl, (c6_in_progress_requeues 0 fc0 sIP pending6 data6 rfl rfl rfl rfl).2⟩

/-- Claim C7 (counterexample): with a processor that errors on `obA`
and leaves `obB` pending forever, the run stalls with `obB` still
pending, yet `select_all_or_error` returns only the accumulated error
batch — `obB` is not converted into a `CodeAmbiguity` error, because
`select_where_possible()?` short-circuits before `to_errors`. -/
theorem c7_select_all_or_error_counterexample :
    selectLoop procC7 2 [pA, pB] [] =
      ([pB],
       [{ obligation := obA,
          code := MFulfillmentErrorCode.codeSelectionError (MSelectionError.other 0) }],
       true) ∧
    select_all_or_error procC7 2 [pA, pB] =
      Except.error
        [{ obligation := obA,
           code := MFulfillmentErrorCode.codeSelectionError (MSelectionError.other 0) }] ∧
    ({ obligation := obB, code := MFulfillmentErrorCode.codeAmbiguity } : MFulfillmentError) ∉
      [({ obligation := obA,
          code := MFulfillmentErrorCode.codeSelectionError (MSelectionError.other 0) } :
        MFulfillmentError)] := by
  refine ⟨rfl, rfl, ?_⟩
  decide

/-- Claim C7 (amended): when the run reaches a stall,
`select_all_or_error` returns `Ok(())` exactly when no errors occurred
and no obligations remain pending; a non-empty error batch accumulated
across all passes is returned as is (pending obligations are then not
converted); only when the batch is empty is each obligation still
pending converted into a `CodeAmbiguity` error. -/
theorem c7_select_all_or_error_amended
    (proc : PendingPredicateObligation → PendingPredicateObligation × ProcessResult)
    (fuel : Nat) (pending pending2 : List PendingPredicateObligation)
    (errors : List MFulfillmentError)
    (h : selectLoop proc fuel pending [] = (pending2, errors, true)) :
    (select_all_or_error proc fuel pending = Except.ok () ↔ (errors = [] ∧ pending2 = [])) ∧
    (errors ≠ [] → select_all_or_error proc fuel pending = Except.error errors) ∧
    (errors = [] →
      select_all_or_error proc fuel pending =
        (if pending2.isEmpty then Except.ok ()
         else
           Except.error (pending2.map (fun o =>
             to_fulfillment_error { error := MFulfillmentErrorCode.codeAmbiguity,
                                    backtrace := [o.obligation] })))) := by
  unfold select_all_or_error fulfillmentSelect
  rw [h]
  cases errors with
  | cons e rest => simp
  | nil =>
    cases pending2 with
    | nil => simp
    | cons p rest => simp

/-- Claim C7 (witness): the amended theorem applied to an
unchanged-forever processor — a pending obligation at the stall with an
empty error batch becomes a `CodeAmbiguity` error. -/
theorem c7_select_all_or_error_witness :
    select_all_or_error procU 1 [pB] =
      (if ([pB] : List PendingPredicateObligation).isEmpty then Except.ok ()
       else
         Except.error ([pB].map (fun o =>
           to_fulfillment_error { error := MFulfillmentErrorCode.codeAmbiguity,
                                  backtrace := [o.obligation] }))) :=
  (c7_select_all_or_error_amended procU 1 [pB] [pB] [] rfl).2.2 rfl

/-- Helper: when the parent walk reaches the root, the last element of
the node-to-root ancestor list is the root obligation. -/
theorem ancestors_getLast (fuelN : Nat) (nodes : List ForestNode) :
    ∀ (i : Nat) (r : MObligation), rootOf fuelN nodes i = some r →
      (ancestors fuelN nodes i).getLast? = some r := by
  induction fuelN with
  | zero => intro i r h; simp [rootOf] at h
  | succ fuelN ih =>
    intro i r h
    simp only [rootOf] at h
    simp only [ancestors]
    cases hg : nodes[i]? with
    | none => simp [hg] at h
    | some node =>
      simp only [hg] at h ⊢
      cases hp : node.parent with
      | none =>
        simp only [hp, Option.some.injEq] at h ⊢
        subst h
        simp
      | some p =>
        simp only [hp] at h ⊢
        have hl := ih p r h
        cases ha : ancestors fuelN nodes p with
        | nil => rw [ha] at hl; simp at hl
        | cons a t =>
          rw [ha] at hl
          simp only [ha, List.getLast?_cons_cons]
          exact hl

/-- Claim C8: the `FulfillmentError` built by `to_fulfillment_error`
pairs the error code with the first obligation of the backtrace, and
the backtrace is the chain from the root to the failing node — so the
reported obligation is the original top-level (root) obligation, not
the deepest failing sub-obligation. -/
theorem c8_error_carries_root (fuelN : Nat) (nodes : List ForestNode) (i : Nat)
    (e : MFulfillmentErrorCode) (r : MObligation)
    (h : rootOf fuelN nodes i = some r) :
    to_fulfillment_error (error_at fuelN nodes i e) = { obligation := r, code := e } := by
  have hl := ancestors_getLast fuelN nodes i r h
  have hh : (ancestors fuelN nodes i).reverse.head? = some r := by
    rw [List.head?_reverse]; exact hl
  unfold to_fulfillment_error error_at
  cases hrev : (ancestors fuelN nodes i).reverse with
  | nil => rw [hrev] at hh; simp at hh
  | cons a t =>
    rw [hrev] at hh
    simp only [List.head?] at hh
    simp only [Option.some.injEq] at hh
    subst hh
    rfl

/-- Claim C8 (witness): for a child node (index 1) whose parent is the
root (index 0), the reported obligation is the root's, not the
child's. -/
theorem c8_error_carries_root_witness :
    rootOf 2 nodes8 1 = some obRoot ∧
    to_fulfillment_error (error_at 2 nodes8 1 (MFulfillmentErrorCode.codeOther 3)) =
      { obligation := obRoot, code := MFulfillmentErrorCode.codeOther 3 } :=
  ⟨rfl, c8_error_carries_root 2 nodes8 1 (MFulfillmentErrorCode.codeOther 3) obRoot rfl⟩

/-- Claim C9 (counterexample): for `<?0 as Iterator>::Item` with the
self type an unresolved inference variable and no applicable bounds,
candidate assembly does not yield `NoProgress` — the trait-def scan
marks the set `Ambiguous` on the inference-variable self type (and
selection's `Ok(None)` keeps it so), so `project_type` reports
`TooManyCandidates` instead of returning the projection unchanged. -/
theorem c9_unresolved_self_counterexample :
    project_type s9.infer tcx0 projOb9 =
      some (Except.error ProjectionTyError.tooManyCandidates) ∧
    project_type s9.infer tcx0 projOb9 ≠
      some (Except.ok (ProjectedTy.noProgress (MTy.proj 5 (MTy.infer 0) 0))) := by
  refine ⟨rfl, ?_⟩
  decide

/-- Claim C9 (amended): for `<?0 as Iterator>::Item` with an
unresolved inference-variable self type and no applicable bounds,
assembly marks the candidate set `Ambiguous` (`TooManyCandidates`,
cached as `Ambiguous`, no type produced), and the driver leaves the
node `Unchanged` (still pending in the forest pass) with `stalled_on`
containing the variable's id. -/
theorem c9_unresolved_self_stalls :
    process_obligation 1 fc0 s9 pending9 =
      some ({ infer := s9.infer, cache := [(proj9, ProjectionCacheEntry.ambiguous)] },
        { obligation := ob9, stalled_on := [0] }, ProcessResult.unchanged) ∧
    processObligationsPass proc9 [pending9] =
      ([{ obligation := ob9, stalled_on := [0] }], [], true) :=
  ⟨rfl, rfl⟩

/-- Claim C10: `poly_project_and_unify_type` is atomic on failure —
when it returns the mismatch error the resulting state is the input
state (every inference-state change made during the attempt is rolled
back by `commit_if_ok`), and on `Ok` results the state is exactly the
one the underlying `project_and_unify_type` computation produced
(committed). -/
theorem c10_poly_project_atomic (fuel : Nat) (tcx : Tcx) (s : SelState)
    (param_env : MParamEnv) (data : MProjectionPredicate) (cause depth : Nat) :
    (∀ s1 e, poly_project_and_unify_type fuel tcx s param_env data cause depth =
        some (s1, Except.error e) → s1 = s) ∧
    (∀ s1 r, poly_project_and_unify_type fuel tcx s param_env data cause depth =
        some (s1, Except.ok r) →
      project_and_unify_type fuel tcx s param_env data cause depth =
        some (s1, Except.ok r)) := by
  unfold poly_project_and_unify_type commit_if_ok
  cases hb : project_and_unify_type fuel tcx s param_env data cause depth with
  | none => simp [hb]
  | some out =>
    obtain ⟨sb, rb⟩ := out
    cases rb with
    | ok a =>
      simp only [hb]
      refine ⟨by simp, ?_⟩
      intro s1 r hr
      simp only [Option.some.injEq, Prod.mk.injEq] at hr
      rw [hr.1, hr.2]
    | error e =>
      simp only [hb]
      refine ⟨by simp, by simp⟩

/-- Claim C10 (witness): a concrete mismatch — the cache-hit path
mutates the state (completing the cached entry) and unification of
`base 9` with `base 1` fails, yet the returned state is the untouched
input state. -/
theorem c10_poly_project_atomic_witness :
    poly_project_and_unify_type 1 tcx0 s3w pe0 dataM 0 0 =
      some (s3w, Except.error MMismatch.mismatch) ∧
    project_and_unify_type 1 tcx0 s3w pe0 dataM 0 0 =
      some ({ s3w with cache := complete_normalized s3w.cache projT0 nt3 },
        Except.error MMismatch.mismatch) ∧
    s3w = s3w :=
  ⟨rfl, rfl, (c10_poly_project_atomic 1 tcx0 s3w pe0 dataM 0 0).1 s3w MMismatch.mismatch rfl⟩
